import Mathlib

/-!
# Verification of the srvplz static file server (src/main.rs)

Shallow embedding of the request-handling core of `srvplz`, a minimal
static-file HTTP server written in Rust.  Rust strings (`&str`, `String`,
`PathBuf`) are embedded as lists of bytes (`List Nat`, each < 256 for valid
inputs); fallible or panicking operations return `Option`.  The filesystem
is modelled as a tree of directories and files rooted at `/`; `fs::metadata`,
`Path::is_file` and `fs::read` are interpreted against that tree with
POSIX path-walking semantics (empty and `.` segments skipped, `..` pops,
traversal into a non-directory fails).
-/

namespace Srvplz

/-- Byte string of an ASCII Lean string literal (every literal used in the
source is ASCII, so this agrees with its UTF-8 encoding). -/
def ascii (s : String) : List Nat := s.data.map Char.toNat

/-- Split a byte list on a separator byte; always returns a nonempty list of
segments (the empty list splits into one empty segment). -/
def splitOnByte (sep : Nat) : List Nat → List (List Nat)
  | [] => [[]]
  | b :: rest =>
    match splitOnByte sep rest with
    | [] => [[b]]
    | s :: ss => if b = sep then [] :: s :: ss else (b :: s) :: ss

/-- Embedding of Rust `str::trim_end_matches('/')`: removes every trailing
`/` byte. -/
def trimTrailingSlashes (p : List Nat) : List Nat :=
  (p.reverse.dropWhile (fun b => b = 47)).reverse

/-- ASCII lowercasing, as applied by `mime_guess` to file extensions. -/
def lowerAscii (p : List Nat) : List Nat :=
  p.map (fun b => if 65 ≤ b ∧ b ≤ 90 then b + 32 else b)

/-- Value of an ASCII hex digit, as accepted by `urlencoding`'s
`from_hex_digit` (0-9, A-F, a-f). -/
def hexVal (b : Nat) : Option Nat :=
  if 48 ≤ b ∧ b ≤ 57 then some (b - 48)
  else if 65 ≤ b ∧ b ≤ 70 then some (b - 55)
  else if 97 ≤ b ∧ b ≤ 102 then some (b - 87)
  else none

/-- Embedding of `urlencoding::decode_binary`: a `%` followed by two hex
digits decodes to that byte; an invalid or truncated escape is passed
through literally, with scanning resuming at the byte right after the `%`.
`+` is not special in this crate. -/
def pctDecode : List Nat → List Nat
  | [] => []
  | 37 :: a :: c :: rest2 =>
    match hexVal a, hexVal c with
    | some x, some y => (16 * x + y) :: pctDecode rest2
    | _, _ => 37 :: pctDecode (a :: c :: rest2)
  | b :: rest => b :: pctDecode rest

/-- Strict UTF-8 validation automaton, as run by Rust's
`String::from_utf8` (no overlong encodings, no surrogates, max U+10FFFF):
`n` continuation bytes are still due, the next of which must lie in
`[lo, hi]` (subsequent ones in `[128, 191]`). -/
def utf8Go (n lo hi : Nat) : List Nat → Bool
  | [] => decide (n = 0)
  | b :: rest =>
    if n = 0 then
      if b < 128 then utf8Go 0 0 0 rest
      else if 194 ≤ b ∧ b ≤ 223 then utf8Go 1 128 191 rest
      else if b = 224 then utf8Go 2 160 191 rest
      else if (225 ≤ b ∧ b ≤ 236) ∨ b = 238 ∨ b = 239 then utf8Go 2 128 191 rest
      else if b = 237 then utf8Go 2 128 159 rest
      else if b = 240 then utf8Go 3 144 191 rest
      else if 241 ≤ b ∧ b ≤ 243 then utf8Go 3 128 191 rest
      else if b = 244 then utf8Go 3 128 143 rest
      else false
    else if lo ≤ b ∧ b ≤ hi then utf8Go (n - 1) 128 191 rest
    else false

/-- Strict UTF-8 validity of a byte list, as checked by Rust's
`String::from_utf8`. -/
def utf8Valid (l : List Nat) : Bool := utf8Go 0 0 0 l

/-- Embedding of `urlencoding::decode`: percent-decode the bytes, then
require the result to be valid UTF-8 (`String::from_utf8`); `Err` is `none`. -/
def urlDecode (p : List Nat) : Option (List Nat) :=
  if utf8Valid (pctDecode p) then some (pctDecode p) else none

/-- Rust `std::path::Component` on Unix (there is no `Component::Prefix`
on this platform, so drive-letter-like names are ordinary
`normal` components). -/
inductive Component : Type
  | rootDir : Component
  | curDir : Component
  | parentDir : Component
  | normal : List Nat → Component
deriving DecidableEq

/-- Classification of one non-initial path segment, following the Rust
component iterator: empty and `.` segments are elided, `..` is a parent
reference, anything else is a normal name. -/
def classifySeg (s : List Nat) : Option Component :=
  if s = [] ∨ s = [46] then none
  else if s = [46, 46] then some Component.parentDir
  else some (Component.normal s)

/-- Embedding of Rust `Path::components()` on Unix: a leading `/` yields
`rootDir`; a relative path beginning with a literal `.` segment keeps it as
`curDir`; every other segment is classified by `classifySeg`. -/
def pathComponents (p : List Nat) : List Component :=
  match splitOnByte 47 p with
  | [] => []
  | first :: rest =>
    if first = [] ∧ p ≠ [] then
      Component.rootDir :: rest.filterMap classifySeg
    else if first = [46] then
      Component.curDir :: rest.filterMap classifySeg
    else (first :: rest).filterMap classifySeg

/-- A component the sanitizer accepts: a plain name or `.`. -/
def goodComponent : Component → Bool
  | Component.normal _ => true
  | Component.curDir => true
  | _ => false

/-- Embedding of `sanitized_relative_path` (src/main.rs:163-172): accept the
path unchanged when every component is `Normal` or `CurDir`, reject
otherwise. -/
def sanitized_relative_path (path : List Nat) : Option (List Nat) :=
  if (pathComponents path).all goodComponent then some path else none

/-- Embedding of `PathBuf::join` for a relative right-hand side: append a
`/` separator and the relative path. -/
def joinPath (base rel : List Nat) : List Nat := base ++ 47 :: rel

/-- Rust `Path::file_name`: the last component when it is a normal name. -/
def fileName (p : List Nat) : Option (List Nat) :=
  match (pathComponents p).getLast? with
  | some (Component.normal n) => some n
  | _ => none

/-- Rust `Path::extension` applied to a file name: the portion after the
final `.`, provided that dot is not the first byte of the name. -/
def rustExtension (f : List Nat) : Option (List Nat) :=
  let revExt := f.reverse.takeWhile (fun b => b ≠ 46)
  if revExt.length + 1 < f.length then some revExt.reverse else none

/-- Modelled from the `mime_guess` crate: a subset of its static
extension-to-MIME table (lookups are case-insensitive; all listed values
are parameterless, so `essence_str` returns them unchanged). -/
def mimeTable : List (List Nat × List Nat) :=
  [(ascii "html", ascii "text/html"),
   (ascii "htm", ascii "text/html"),
   (ascii "css", ascii "text/css"),
   (ascii "json", ascii "application/json"),
   (ascii "txt", ascii "text/plain"),
   (ascii "png", ascii "image/png"),
   (ascii "jpg", ascii "image/jpeg"),
   (ascii "gif", ascii "image/gif"),
   (ascii "pdf", ascii "application/pdf"),
   (ascii "svg", ascii "image/svg+xml")]

/-- Association-list lookup keyed by byte strings. -/
def assocLookup {α : Type} : List (List Nat × α) → List Nat → Option α
  | [], _ => none
  | (k, v) :: rest, key => if k = key then some v else assocLookup rest key

/-- Embedding of `mime_guess::from_path(path).first_or_octet_stream()
.essence_str()`: look up the lowercased extension of the path's file name,
falling back to `application/octet-stream`. -/
def mimeEssence (p : List Nat) : List Nat :=
  match fileName p with
  | none => ascii "application/octet-stream"
  | some f =>
    match rustExtension f with
    | none => ascii "application/octet-stream"
    | some e =>
      match assocLookup mimeTable (lowerAscii e) with
      | some m => m
      | none => ascii "application/octet-stream"

/-- The filesystem: a tree of regular files (with contents) and
directories (with named children). -/
inductive FsTree : Type
  | file : List Nat → FsTree
  | dir : List (List Nat × FsTree) → FsTree

/-- What `fs::metadata` reports about an entry: a regular file with its
byte size, or a directory. -/
inductive Meta : Type
  | fileM : Nat → Meta
  | dirM : Meta
deriving DecidableEq

/-- POSIX path walk from a node: empty and `.` segments are no-ops on a
directory (but fail on a file, as the kernel reports `ENOTDIR`), `..` pops
to the parent (staying put at the root), a name descends into a child. -/
def walkAux : FsTree → List FsTree → List (List Nat) → Option FsTree
  | t, _, [] => some t
  | FsTree.file _, _, _ :: _ => none
  | FsTree.dir ch, anc, s :: rest =>
    if s = [] ∨ s = [46] then walkAux (FsTree.dir ch) anc rest
    else if s = [46, 46] then
      match anc with
      | [] => walkAux (FsTree.dir ch) [] rest
      | parent :: anc2 => walkAux parent anc2 rest
    else
      match assocLookup ch s with
      | some t => walkAux t (FsTree.dir ch :: anc) rest
      | none => none

/-- Resolve an absolute byte path against the filesystem root. -/
def walk (fs : FsTree) (p : List Nat) : Option FsTree :=
  walkAux fs [] (splitOnByte 47 p)

/-- Embedding of `fs::metadata`. -/
def stat (fs : FsTree) (p : List Nat) : Option Meta :=
  match walk fs p with
  | some (FsTree.file c) => some (Meta.fileM c.length)
  | some (FsTree.dir _) => some Meta.dirM
  | none => none

/-- Embedding of `Path::is_file` (a successful stat reporting a regular
file). -/
def isFile (fs : FsTree) (p : List Nat) : Bool :=
  match stat fs p with
  | some (Meta.fileM _) => true
  | _ => false

/-- Embedding of `fs::read` (succeeds exactly on regular files). -/
def readFile (fs : FsTree) (p : List Nat) : Option (List Nat) :=
  match walk fs p with
  | some (FsTree.file c) => some c
  | _ => none

/-- `Metadata::len()`; only ever used by the code on regular files. -/
def Meta.size : Meta → Nat
  | Meta.fileM n => n
  | Meta.dirM => 0

/-- An HTTP response as assembled by the code through `tiny_http`: status
code, explicitly-added headers (in insertion order), body bytes. -/
structure Resp : Type where
  status : Nat
  headers : List (String × List Nat)
  body : List Nat
deriving DecidableEq

/-- `Response::add_header`. -/
def addHeader (r : Resp) (h : String × List Nat) : Resp :=
  { r with headers := r.headers ++ [h] }

/-- The `Content-Type: text/plain; charset=UTF-8` header that
`tiny_http::Response::from_string` attaches. -/
def ctPlain : String × List Nat :=
  ("Content-Type", ascii "text/plain; charset=UTF-8")

/-- Embedding of `response_with_status` (src/main.rs:196-206): empty body
for HEAD, plain-text phrase otherwise. -/
def response_with_status (status : Nat) (method : String) (body : String) : Resp :=
  if method = "HEAD" then { status := status, headers := [], body := [] }
  else { status := status, headers := [ctPlain], body := ascii body }

/-- The byte string "index.html". -/
def indexHtml : List Nat := ascii "index.html"

/-- Embedding of `build_file_response` (src/main.rs:174-194): guess the
MIME type from the path, stat the file (`?` propagates failure), read the
body for non-HEAD methods, attach `Content-Type`, and for HEAD attach a
`Content-Length` equal to the stat-reported size. -/
def build_file_response (fs : FsTree) (path : List Nat) (method : String) :
    Option Resp :=
  match stat fs path with
  | none => none
  | some meta =>
    match (if method = "HEAD" then
             some { status := 200, headers := ([] : List (String × List Nat)),
                    body := ([] : List Nat) }
           else
             match readFile fs path with
             | none => none
             | some body =>
               some { status := 200, headers := ([] : List (String × List Nat)),
                      body := body }) with
    | none => none
    | some r =>
      some (if method = "HEAD" then
              addHeader (addHeader r ("Content-Type", mimeEssence path))
                ("Content-Length", ascii (toString meta.size))
            else addHeader r ("Content-Type", mimeEssence path))

/-- Lines 154-160 of `route_request`: hand the final target to
`build_file_response`, mapping success to 200 and failure to 500. -/
def finishServe (fs : FsTree) (target : List Nat) (method : String) :
    Nat × Resp :=
  match build_file_response fs target method with
  | some r => (200, r)
  | none => (500, response_with_status 500 method "Internal Server Error")

/-- Lines 141-152 of `route_request`: stat the target; a directory is
served through its `index.html` when that is a regular file and is a 404
otherwise; a stat failure is a 404. -/
def serveTarget (fs : FsTree) (target : List Nat) (method : String) :
    Nat × Resp :=
  match stat fs target with
  | some Meta.dirM =>
    if isFile fs (joinPath target indexHtml) then
      finishServe fs (joinPath target indexHtml) method
    else (404, response_with_status 404 method "Not Found")
  | some (Meta.fileM _) => finishServe fs target method
  | none => (404, response_with_status 404 method "Not Found")

/-- The trailing-slash redirect guard of line 119:
`path.len() > 1 && path.ends_with('/')` (on valid UTF-8 the last byte is
`/` exactly when the last char is). -/
def wantsRedirect (path : List Nat) : Bool :=
  decide (1 < path.length) && (path.getLast? == some 47)

/-- Embedding of the byte slice `&decoded[1..]` of line 134: panics
(`none`) when the string is empty or byte 1 is not a char boundary, i.e.
when byte 1 exists and is a UTF-8 continuation byte. -/
def sliceFrom1 (s : List Nat) : Option (List Nat) :=
  match s with
  | [] => none
  | [_] => some []
  | _ :: b :: rest => if 128 ≤ b ∧ b ≤ 191 then none else some (b :: rest)

/-- Embedding of `route_request` (src/main.rs:114-161).  The outer
`Option` models panicking: `none` means the function panics (only possible
at the `&decoded[1..]` slice). -/
def route_request (fs : FsTree) (baseDir : List Nat) (path : List Nat)
    (method : String) : Option (Nat × Resp) :=
  if wantsRedirect path then
    some (301, addHeader { status := 301, headers := [], body := [] }
                 ("Location", trimTrailingSlashes path))
  else
    match urlDecode path with
    | none => some (400, response_with_status 400 method "Bad Request")
    | some decoded =>
      if decoded = [47] then
        some (serveTarget fs (joinPath baseDir indexHtml) method)
      else
        match sliceFrom1 decoded with
        | none => none
        | some relative =>
          match sanitized_relative_path relative with
          | some rel => some (serveTarget fs (joinPath baseDir rel) method)
          | none => some (404, response_with_status 404 method "Not Found")

/-- The target computed by lines 119-139 of `route_request` before the
filesystem is consulted: `some t` exactly when the request survives the
redirect, decoding, slicing and sanitizing stages with resolved path `t`. -/
def requestTarget (baseDir path : List Nat) : Option (List Nat) :=
  if wantsRedirect path then none
  else
    match urlDecode path with
    | none => none
    | some decoded =>
      if decoded = [47] then some (joinPath baseDir indexHtml)
      else
        match sliceFrom1 decoded with
        | none => none
        | some relative =>
          (sanitized_relative_path relative).map (joinPath baseDir)

/-- Embedding of `handle_request` (src/main.rs:91-112): split the URL at
the first `?`, route GET and HEAD, and answer anything else with 405 plus
an `Allow: GET, HEAD` header. -/
def handle_request (fs : FsTree) (baseDir : List Nat) (method : String)
    (url : List Nat) : Option (Nat × Resp) :=
  if method = "GET" ∨ method = "HEAD" then
    route_request fs baseDir (url.takeWhile (fun b => b ≠ 63)) method
  else
    some (405, addHeader (response_with_status 405 method "Method Not Allowed")
                 ("Allow", ascii "GET, HEAD"))

/-! ## Helper lemmas -/

/-- When the pre-filesystem stages produce a target, `route_request` serves
exactly that target. -/
theorem route_eq_serveTarget (fs : FsTree) (base path : List Nat) (m : String)
    (t : List Nat) (h : requestTarget base path = some t) :
    route_request fs base path m = some (serveTarget fs t m) := by
  unfold requestTarget at h
  unfold route_request
  split at h
  · exact absurd h (by simp)
  · rename_i hw
    rw [if_neg hw]
    cases hdec : urlDecode path with
    | none => simp [hdec] at h
    | some decoded =>
      simp only [hdec] at h ⊢
      by_cases hroot : decoded = [47]
      · simp only [if_pos hroot] at h ⊢
        simp only [Option.some.injEq] at h
        rw [← h]
      · simp only [if_neg hroot] at h ⊢
        cases hsl : sliceFrom1 decoded with
        | none => simp [hsl] at h
        | some relative =>
          simp only [hsl] at h ⊢
          cases hsan : sanitized_relative_path relative with
          | none => simp [hsan] at h
          | some rel =>
            simp only [hsan] at h ⊢
            simp only [Option.map_some', Option.some.injEq] at h
            rw [h]

/-- A 200 or 500 outcome of `route_request` comes from serving the target
computed by the pre-filesystem stages. -/
theorem route_200_500 (fs : FsTree) (base path : List Nat) (m : String)
    (s : Nat) (r : Resp) (h : route_request fs base path m = some (s, r))
    (hs : s = 200 ∨ s = 500) :
    ∃ t, requestTarget base path = some t ∧ serveTarget fs t m = (s, r) := by
  unfold route_request at h
  unfold requestTarget
  split at h
  · rename_i hw
    simp only [Option.some.injEq, Prod.mk.injEq] at h
    omega
  · rename_i hw
    rw [if_neg hw]
    cases hdec : urlDecode path with
    | none =>
      simp only [hdec, Option.some.injEq, Prod.mk.injEq] at h
      omega
    | some decoded =>
      simp only [hdec] at h ⊢
      by_cases hroot : decoded = [47]
      · simp only [if_pos hroot] at h ⊢
        simp only [Option.some.injEq] at h
        exact ⟨joinPath base indexHtml, rfl, h⟩
      · simp only [if_neg hroot] at h ⊢
        cases hsl : sliceFrom1 decoded with
        | none => simp [hsl] at h
        | some relative =>
          simp only [hsl] at h ⊢
          cases hsan : sanitized_relative_path relative with
          | none =>
            simp only [hsan, Option.some.injEq, Prod.mk.injEq] at h
            omega
          | some rel =>
            simp only [hsan] at h ⊢
            simp only [Option.some.injEq] at h
            exact ⟨joinPath base rel, by simp, h⟩

/-- The sanitizer hands back its input, and only when every component is
acceptable. -/
theorem sanitized_eq_some (relative rel : List Nat)
    (h : sanitized_relative_path relative = some rel) :
    rel = relative ∧ (pathComponents relative).all goodComponent = true := by
  unfold sanitized_relative_path at h
  split at h
  · rename_i hall
    simp only [Option.some.injEq] at h
    exact ⟨h.symm, hall⟩
  · simp at h

/-- Every target produced by the pre-filesystem stages is the base
directory joined with a component-wise acceptable relative path. -/
theorem requestTarget_form (base path t : List Nat)
    (h : requestTarget base path = some t) :
    ∃ rel, (pathComponents rel).all goodComponent = true ∧
      t = joinPath base rel := by
  unfold requestTarget at h
  split at h
  · simp at h
  · cases hdec : urlDecode path with
    | none => simp [hdec] at h
    | some decoded =>
      simp only [hdec] at h
      by_cases hroot : decoded = [47]
      · simp only [if_pos hroot, Option.some.injEq] at h
        exact ⟨indexHtml, by decide, h.symm⟩
      · simp only [if_neg hroot] at h
        cases hsl : sliceFrom1 decoded with
        | none => simp [hsl] at h
        | some relative =>
          simp only [hsl] at h
          cases hsan : sanitized_relative_path relative with
          | none => simp [hsan] at h
          | some rel =>
            simp only [hsan, Option.map_some', Option.some.injEq] at h
            obtain ⟨heq, hall⟩ := sanitized_eq_some relative rel hsan
            exact ⟨rel, heq ▸ hall, h.symm⟩

/-- `finishServe` outcomes, by the result of the response builder. -/
theorem finishServe_cases (fs : FsTree) (u : List Nat) (m : String)
    (s : Nat) (r : Resp) (h : finishServe fs u m = (s, r)) :
    (s = 200 ∧ build_file_response fs u m = some r) ∨
    (s = 500 ∧ build_file_response fs u m = none ∧
      r = response_with_status 500 m "Internal Server Error") := by
  unfold finishServe at h
  split at h
  · rename_i hb
    simp only [Prod.mk.injEq] at h
    exact Or.inl ⟨h.1.symm, by rw [hb, h.2]⟩
  · rename_i hb
    simp only [Prod.mk.injEq] at h
    exact Or.inr ⟨h.1.symm, hb, h.2.symm⟩

/-- A 200 or 500 outcome of `serveTarget` comes from the builder applied
either to the target itself or to `index.html` inside it. -/
theorem serveTarget_form (fs : FsTree) (t : List Nat) (m : String)
    (s : Nat) (r : Resp) (h : serveTarget fs t m = (s, r))
    (hs : s = 200 ∨ s = 500) :
    ∃ u, (u = t ∨ u = joinPath t indexHtml) ∧
      ((s = 200 ∧ build_file_response fs u m = some r) ∨
       (s = 500 ∧ build_file_response fs u m = none)) := by
  unfold serveTarget at h
  split at h
  · split at h
    · refine ⟨joinPath t indexHtml, Or.inr rfl, ?_⟩
      rcases finishServe_cases fs (joinPath t indexHtml) m s r h with h2 | h2
      · exact Or.inl ⟨h2.1, h2.2⟩
      · exact Or.inr ⟨h2.1, h2.2.1⟩
    · simp only [Prod.mk.injEq] at h
      omega
  · refine ⟨t, Or.inl rfl, ?_⟩
    rcases finishServe_cases fs t m s r h with h2 | h2
    · exact Or.inl ⟨h2.1, h2.2⟩
    · exact Or.inr ⟨h2.1, h2.2.1⟩
  · simp only [Prod.mk.injEq] at h
    omega

/-- A path containing a component other than a plain name or `.` is
rejected by the sanitizer. -/
theorem sanitized_none_of_bad (rel : List Nat) (c : Component)
    (hc : c ∈ pathComponents rel)
    (hbad : c = Component.parentDir ∨ c = Component.rootDir) :
    sanitized_relative_path rel = none := by
  unfold sanitized_relative_path
  rw [if_neg]
  intro hall
  have := List.all_eq_true.mp hall c hc
  rcases hbad with h | h <;> subst h <;> simp [goodComponent] at this

/-- Percent-decoding walks over any byte other than `%`. -/
theorem pctDecode_cons (b : Nat) (rest : List Nat) (hb : b ≠ 37) :
    pctDecode (b :: rest) = b :: pctDecode rest := by
  cases rest with
  | nil => simp [pctDecode, hb]
  | cons a r =>
    cases r with
    | nil => simp [pctDecode, hb]
    | cons c r2 => simp [pctDecode, hb]

/-- UTF-8 validation walks over an ASCII byte. -/
theorem utf8Valid_cons_lt (b : Nat) (rest : List Nat) (hb : b < 128) :
    utf8Valid (b :: rest) = utf8Valid rest := by
  rw [utf8Valid, utf8Go, if_pos rfl, if_pos hb]
  rfl

/-- The first byte of a valid UTF-8 string is never a continuation byte. -/
theorem utf8Valid_head_not_cont (b : Nat) (r : List Nat)
    (h : utf8Valid (b :: r) = true) : ¬ (128 ≤ b ∧ b ≤ 191) := by
  intro hc
  obtain ⟨hlo, hhi⟩ := hc
  rw [utf8Valid, utf8Go, if_pos rfl] at h
  have e1 : ¬ b < 128 := by omega
  have e2 : ¬ (194 ≤ b ∧ b ≤ 223) := by omega
  have e3 : b ≠ 224 := by omega
  have e4 : ¬ ((225 ≤ b ∧ b ≤ 236) ∨ b = 238 ∨ b = 239) := by omega
  have e5 : b ≠ 237 := by omega
  have e6 : b ≠ 240 := by omega
  have e7 : ¬ (241 ≤ b ∧ b ≤ 243) := by omega
  have e8 : b ≠ 244 := by omega
  rw [if_neg e1, if_neg e2, if_neg e3, if_neg e4, if_neg e5, if_neg e6,
      if_neg e7, if_neg e8] at h
  exact absurd h (by simp)

/-- A successful read means the entry is a regular file of that size. -/
theorem stat_of_read (fs : FsTree) (t c : List Nat)
    (h : readFile fs t = some c) :
    stat fs t = some (Meta.fileM c.length) := by
  cases hw : walk fs t with
  | none => simp [readFile, hw] at h
  | some e =>
    cases e with
    | file c2 =>
      simp [readFile, hw] at h
      simp [stat, hw, h]
    | dir ch => simp [readFile, hw] at h

/-- A path reported as a regular file can be read. -/
theorem read_of_isFile (fs : FsTree) (t : List Nat)
    (h : isFile fs t = true) :
    ∃ c, readFile fs t = some c ∧ stat fs t = some (Meta.fileM c.length) := by
  cases hw : walk fs t with
  | none => simp [isFile, stat, hw] at h
  | some e =>
    cases e with
    | file c2 => exact ⟨c2, by simp [readFile, hw], by simp [stat, hw]⟩
    | dir ch => simp [isFile, stat, hw] at h

/-- The response built for a readable regular file, for HEAD and for the
other routed methods. -/
theorem build_file_of_read (fs : FsTree) (t c : List Nat)
    (hr : readFile fs t = some c) (m : String) :
    (m = "HEAD" → build_file_response fs t m
        = some { status := 200,
                 headers := [("Content-Type", mimeEssence t),
                             ("Content-Length", ascii (toString c.length))],
                 body := [] })
    ∧ (m ≠ "HEAD" → build_file_response fs t m
        = some { status := 200,
                 headers := [("Content-Type", mimeEssence t)],
                 body := c }) := by
  have hs := stat_of_read fs t c hr
  constructor
  · intro hm
    subst hm
    simp [build_file_response, hs, addHeader, Meta.size]
  · intro hm
    simp [build_file_response, hs, hr, addHeader, hm]

/-- A 200 from `serveTarget` comes from building a regular file — either
the target itself or the `index.html` inside a directory target — and
every other method is routed to that same file. -/
theorem serveTarget_200 (fs : FsTree) (t : List Nat) (m : String) (rsp : Resp)
    (h : serveTarget fs t m = (200, rsp)) :
    ∃ u, isFile fs u = true ∧ build_file_response fs u m = some rsp ∧
      ∀ m2, serveTarget fs t m2 = finishServe fs u m2 := by
  unfold serveTarget at h
  cases hs : stat fs t with
  | none =>
    simp only [hs, Prod.mk.injEq] at h
    exact absurd h.1 (by decide)
  | some meta =>
    cases meta with
    | fileM n =>
      simp only [hs] at h
      refine ⟨t, by simp [isFile, hs], ?_, fun m2 => by simp [serveTarget, hs]⟩
      rcases finishServe_cases fs t m 200 rsp h with h2 | h2
      · exact h2.2
      · exact absurd h2.1 (by decide)
    | dirM =>
      simp only [hs] at h
      by_cases hf : isFile fs (joinPath t indexHtml) = true
      · rw [if_pos hf] at h
        refine ⟨joinPath t indexHtml, hf, ?_, fun m2 => by simp [serveTarget, hs, hf]⟩
        rcases finishServe_cases fs (joinPath t indexHtml) m 200 rsp h with h2 | h2
        · exact h2.2
        · exact absurd h2.1 (by decide)
      · rw [if_neg hf] at h
        simp only [Prod.mk.injEq] at h
        exact absurd h.1 (by decide)

/-- HEAD responses built by `finishServe` have an empty body. -/
theorem finishServe_head_body (fs : FsTree) (u : List Nat) :
    (finishServe fs u "HEAD").2.body = [] := by
  unfold finishServe build_file_response
  cases hs : stat fs u with
  | none => simp [response_with_status]
  | some meta => simp [addHeader]

/-- HEAD responses produced by `serveTarget` have an empty body. -/
theorem serveTarget_head_body (fs : FsTree) (t : List Nat) :
    (serveTarget fs t "HEAD").2.body = [] := by
  unfold serveTarget
  cases hs : stat fs t with
  | none => simp [response_with_status]
  | some meta =>
    cases meta with
    | fileM n => simpa using finishServe_head_body fs t
    | dirM =>
      by_cases hf : isFile fs (joinPath t indexHtml) = true
      · simpa [hf] using finishServe_head_body fs (joinPath t indexHtml)
      · simp [hf, response_with_status]

/-- Every response `route_request` produces for HEAD has an empty body. -/
theorem route_head_body (fs : FsTree) (base p : List Nat) (s : Nat)
    (rsp : Resp) (h : route_request fs base p "HEAD" = some (s, rsp)) :
    rsp.body = [] := by
  unfold route_request at h
  split at h
  · simp only [Option.some.injEq, Prod.mk.injEq] at h
    rw [← h.2]
    rfl
  · split at h
    · simp only [Option.some.injEq, Prod.mk.injEq] at h
      rw [← h.2]
      simp [response_with_status]
    · split at h
      · simp only [Option.some.injEq] at h
        have hb := serveTarget_head_body fs (joinPath base indexHtml)
        rw [h] at hb
        exact hb
      · split at h
        · exact absurd h (by simp)
        · split at h
          · simp only [Option.some.injEq] at h
            rename_i rel _
            have hb := serveTarget_head_body fs (joinPath base rel)
            rw [h] at hb
            exact hb
          · simp only [Option.some.injEq, Prod.mk.injEq] at h
            rw [← h.2]
            simp [response_with_status]

/-- Two filesystems with identical metadata yield identical HEAD
responses from the builder (no content bytes are consulted). -/
theorem build_head_stat_eq (fs fs2 : FsTree)
    (h : ∀ q, stat fs q = stat fs2 q) (u : List Nat) :
    build_file_response fs u "HEAD" = build_file_response fs2 u "HEAD" := by
  unfold build_file_response
  simp [h u]

/-- `isFile` is determined by metadata. -/
theorem isFile_stat_eq (fs fs2 : FsTree)
    (h : ∀ q, stat fs q = stat fs2 q) (u : List Nat) :
    isFile fs u = isFile fs2 u := by
  unfold isFile
  rw [h u]

/-- `finishServe` for HEAD is determined by metadata. -/
theorem finishServe_head_stat_eq (fs fs2 : FsTree)
    (h : ∀ q, stat fs q = stat fs2 q) (u : List Nat) :
    finishServe fs u "HEAD" = finishServe fs2 u "HEAD" := by
  unfold finishServe
  rw [build_head_stat_eq fs fs2 h u]

/-- `serveTarget` for HEAD is determined by metadata. -/
theorem serveTarget_head_stat_eq (fs fs2 : FsTree)
    (h : ∀ q, stat fs q = stat fs2 q) (t : List Nat) :
    serveTarget fs t "HEAD" = serveTarget fs2 t "HEAD" := by
  unfold serveTarget
  rw [h t, isFile_stat_eq fs fs2 h (joinPath t indexHtml),
      finishServe_head_stat_eq fs fs2 h (joinPath t indexHtml),
      finishServe_head_stat_eq fs fs2 h t]

/-- `route_request` for HEAD is determined by metadata. -/
theorem route_head_stat_eq (fs fs2 : FsTree) (base p : List Nat)
    (h : ∀ q, stat fs q = stat fs2 q) :
    route_request fs base p "HEAD" = route_request fs2 base p "HEAD" := by
  unfold route_request
  by_cases hw : wantsRedirect p = true
  · simp only [if_pos hw]
  · simp only [if_neg hw]
    cases hdec : urlDecode p with
    | none => simp only [hdec]
    | some decoded =>
      simp only [hdec]
      by_cases hroot : decoded = [47]
      · simp only [if_pos hroot]
        rw [serveTarget_head_stat_eq fs fs2 h (joinPath base indexHtml)]
      · simp only [if_neg hroot]
        cases hsl : sliceFrom1 decoded with
        | none => simp only [hsl]
        | some relative =>
          simp only [hsl]
          cases hsan : sanitized_relative_path relative with
          | none => simp only [hsan]
          | some rel =>
            simp only [hsan]
            rw [serveTarget_head_stat_eq fs fs2 h (joinPath base rel)]

/-- A concrete filesystem used to witness the claims: a base directory
`/srv` holding an `index.html`, a subdirectory `docs` with its own
`index.html`, a JSON file, and an empty subdirectory `plain`. -/
def demoFs : FsTree :=
  FsTree.dir
    [(ascii "srv", FsTree.dir
      [(ascii "index.html", FsTree.file (ascii "<p>home</p>")),
       (ascii "docs", FsTree.dir
         [(ascii "index.html", FsTree.file (ascii "docs home"))]),
       (ascii "data.json", FsTree.file (ascii "[1, 2]")),
       (ascii "plain", FsTree.dir [])])]

/-! ## Claims -/

/-- C1: for every decoded relative path containing a parent-directory or
root/absolute component (the only non-`Normal`/`CurDir` component kinds on
this platform, where drive prefixes do not exist), `sanitized_relative_path`
returns `none`, and `route_request` answers 404 Not Found for any request
that reaches relative resolution with such a decoded relative path. -/
theorem claim_C1_traversal_rejected :
    (∀ rel c, c ∈ pathComponents rel →
        (c = Component.parentDir ∨ c = Component.rootDir) →
        sanitized_relative_path rel = none)
    ∧ (∀ fs base path method decoded relative c,
        wantsRedirect path = false →
        urlDecode path = some decoded → decoded ≠ [47] →
        sliceFrom1 decoded = some relative →
        c ∈ pathComponents relative →
        (c = Component.parentDir ∨ c = Component.rootDir) →
        route_request fs base path method
          = some (404, response_with_status 404 method "Not Found")) := by
  refine ⟨sanitized_none_of_bad, ?_⟩
  intro fs base path method decoded relative c hw hdec hroot hsl hc hbad
  unfold route_request
  rw [if_neg (by simp [hw])]
  simp only [hdec, if_neg hroot, hsl, sanitized_none_of_bad relative c hc hbad]

/-- Witness for C1 at the request `/..%2Fetc`, whose decoded relative path
`../etc` has a leading parent-directory component. -/
theorem claim_C1_traversal_rejected_witness :
    sanitized_relative_path (ascii "../etc") = none ∧
    route_request (FsTree.dir []) (ascii "/srv") (ascii "/..%2Fetc") "GET"
      = some (404, response_with_status 404 "GET" "Not Found") := by
  constructor
  · exact claim_C1_traversal_rejected.1 (ascii "../etc") Component.parentDir
      (by decide) (Or.inl rfl)
  · exact claim_C1_traversal_rejected.2 (FsTree.dir []) (ascii "/srv")
      (ascii "/..%2Fetc") "GET" (ascii "/../etc") (ascii "../etc")
      Component.parentDir (by decide) (by decide) (by decide) (by decide)
      (by decide) (Or.inl rfl)

/-- C3 counterexample: for `/docs//` the code answers 301 with `Location:
/docs` — all trailing slashes removed — whereas removing a single trailing
slash would give `/docs/`. -/
theorem claim_C3_counterexample :
    route_request (FsTree.dir []) (ascii "/srv") (ascii "/docs//") "GET"
      = some (301, { status := 301,
                     headers := [("Location", ascii "/docs")], body := [] })
    ∧ ascii "/docs" ≠ ascii "/docs/" := by
  constructor
  · decide
  · decide

/-- C3 amended: for every request path of length > 1 ending in `/`,
`route_request` returns 301 with an empty body and a `Location` header
equal to the path with all trailing `/` removed (the root `/` is exempt by
the length condition). -/
theorem claim_C3_redirect_amended :
    ∀ fs base path method, 1 < path.length → path.getLast? = some 47 →
      route_request fs base path method
        = some (301, { status := 301,
                       headers := [("Location", trimTrailingSlashes path)],
                       body := [] }) := by
  intro fs base path method h1 h2
  unfold route_request
  rw [if_pos (by unfold wantsRedirect; simp [h1, h2])]
  rfl

/-- Witness for the amended C3 at `/docs/`. -/
theorem claim_C3_redirect_amended_witness :
    route_request (FsTree.dir []) (ascii "/srv") (ascii "/docs/") "GET"
      = some (301, { status := 301,
                     headers := [("Location", trimTrailingSlashes (ascii "/docs/"))],
                     body := [] }) :=
  claim_C3_redirect_amended (FsTree.dir []) (ascii "/srv") (ascii "/docs/")
    "GET" (by decide) (by decide)

/-- C6: a method other than GET and HEAD is answered 405 with an
`Allow: GET, HEAD` header and the plain-text body `Method Not Allowed`;
the answer is the same for every filesystem and base directory (no
routing, decoding or filesystem access takes place). -/
theorem claim_C6_method_not_allowed :
    ∀ fs fs2 base base2 method url,
      method ≠ "GET" → method ≠ "HEAD" →
      handle_request fs base method url
        = some (405, { status := 405,
                       headers := [ctPlain, ("Allow", ascii "GET, HEAD")],
                       body := ascii "Method Not Allowed" })
      ∧ handle_request fs base method url = handle_request fs2 base2 method url := by
  intro fs fs2 base base2 method url h1 h2
  have hx : ¬ (method = "GET" ∨ method = "HEAD") := by tauto
  constructor
  · unfold handle_request
    rw [if_neg hx]
    unfold response_with_status
    rw [if_neg h2]
    rfl
  · unfold handle_request
    rw [if_neg hx, if_neg hx]

/-- Witness for C6: a POST, against two different filesystems. -/
theorem claim_C6_method_not_allowed_witness :
    handle_request (FsTree.dir []) (ascii "/srv") "POST" (ascii "/")
      = some (405, { status := 405,
                     headers := [ctPlain, ("Allow", ascii "GET, HEAD")],
                     body := ascii "Method Not Allowed" })
    ∧ handle_request (FsTree.dir []) (ascii "/srv") "POST" (ascii "/")
      = handle_request (FsTree.file []) (ascii "/other") "POST" (ascii "/") :=
  claim_C6_method_not_allowed (FsTree.dir []) (FsTree.file []) (ascii "/srv")
    (ascii "/other") "POST" (ascii "/") (by decide) (by decide)

/-- C9 counterexample: the request path `/%FF/` fails percent-decoding
(0xFF is not valid UTF-8), yet `route_request` answers 301, not 400,
because the trailing-slash redirect is decided first. -/
theorem claim_C9_counterexample :
    urlDecode (ascii "/%FF/") = none
    ∧ route_request (FsTree.dir []) (ascii "/srv") (ascii "/%FF/") "GET"
        = some (301, { status := 301,
                       headers := [("Location", ascii "/%FF")], body := [] })
    ∧ (301 : Nat) ≠ 400 := by
  refine ⟨by decide, by decide, by decide⟩

/-- C9 amended: for every request path that is not claimed by the
trailing-slash redirect and whose percent-decoding fails, `route_request`
answers 400 Bad Request, with the plain-text body `Bad Request` for
non-HEAD methods. -/
theorem claim_C9_bad_request_amended :
    ∀ fs base path method,
      wantsRedirect path = false → urlDecode path = none →
      route_request fs base path method
        = some (400, response_with_status 400 method "Bad Request")
      ∧ (method ≠ "HEAD" →
          response_with_status 400 method "Bad Request"
            = { status := 400, headers := [ctPlain],
                body := ascii "Bad Request" }) := by
  intro fs base path method hw hdec
  constructor
  · unfold route_request
    rw [if_neg (by simp [hw])]
    simp only [hdec]
  · intro hm
    unfold response_with_status
    rw [if_neg hm]

/-- Witness for the amended C9 at `/%FF`. -/
theorem claim_C9_bad_request_amended_witness :
    route_request (FsTree.dir []) (ascii "/srv") (ascii "/%FF") "GET"
      = some (400, response_with_status 400 "GET" "Bad Request")
    ∧ response_with_status 400 "GET" "Bad Request"
      = { status := 400, headers := [ctPlain], body := ascii "Bad Request" } := by
  have h := claim_C9_bad_request_amended (FsTree.dir []) (ascii "/srv")
    (ascii "/%FF") "GET" (by decide) (by decide)
  exact ⟨h.1, h.2 (by decide)⟩

/-- C10: when the request path begins with `/`, the byte slice
`&decoded[1..]` is always at a char boundary and `route_request` never
panics; for paths that do not begin with `/` the slice can panic — it does
on the empty path and on `%C3%A9`, whose decoded form starts with a
two-byte character. -/
theorem claim_C10_slice_safety :
    (∀ fs base path method, path.head? = some 47 →
        (route_request fs base path method).isSome = true)
    ∧ route_request (FsTree.dir []) (ascii "/srv") [] "GET" = none
    ∧ route_request (FsTree.dir []) (ascii "/srv") (ascii "%C3%A9") "GET" = none := by
  refine ⟨?_, by decide, by decide⟩
  intro fs base path method hh
  cases path with
  | nil => simp at hh
  | cons b p =>
    simp only [List.head?, Option.some.injEq] at hh
    subst hh
    unfold route_request
    by_cases hw : wantsRedirect (47 :: p) = true
    · rw [if_pos hw]; rfl
    · rw [if_neg hw]
      by_cases hv : utf8Valid (47 :: pctDecode p) = true
      · have hdec : urlDecode (47 :: p) = some (47 :: pctDecode p) := by
          unfold urlDecode
          rw [pctDecode_cons 47 p (by omega), if_pos hv]
        simp only [hdec]
        cases hp : pctDecode p with
        | nil =>
          rw [if_pos rfl]
          rfl
        | cons c r =>
          rw [if_neg (by simp)]
          rw [hp] at hv
          rw [utf8Valid_cons_lt 47 (c :: r) (by omega)] at hv
          have hnc := utf8Valid_head_not_cont c r hv
          have hsl : sliceFrom1 (47 :: c :: r) = some (c :: r) := by
            simp only [sliceFrom1]
            rw [if_neg hnc]
          simp only [hsl]
          cases hsan : sanitized_relative_path (c :: r) with
          | some rel => simp [hsan]
          | none => simp [hsan]
      · have hdec : urlDecode (47 :: p) = none := by
          unfold urlDecode
          rw [pctDecode_cons 47 p (by omega), if_neg hv]
        simp [hdec]

/-- Witness for C10's universally quantified part, at the path `/a`. -/
theorem claim_C10_slice_safety_witness :
    (route_request (FsTree.dir []) (ascii "/srv") (ascii "/a") "GET").isSome = true :=
  claim_C10_slice_safety.1 (FsTree.dir []) (ascii "/srv") (ascii "/a") "GET"
    (by decide)

/-- C2: every request whose response comes from the Response Builder is
served from a target that is the base directory joined with a relative
path all of whose components are plain names or `.`, possibly with a
final `index.html` appended — so the resolved target is lexically
contained in the base directory. -/
theorem claim_C2_containment :
    ∀ fs base path method s rsp,
      route_request fs base path method = some (s, rsp) →
      (s = 200 ∨ s = 500) →
      ∃ t rel, (pathComponents rel).all goodComponent = true ∧
        (t = joinPath base rel ∨ t = joinPath (joinPath base rel) indexHtml) ∧
        ((s = 200 ∧ build_file_response fs t method = some rsp) ∨
         (s = 500 ∧ build_file_response fs t method = none)) := by
  intro fs base path method s rsp h hs
  obtain ⟨t0, hrt, hserve⟩ := route_200_500 fs base path method s rsp h hs
  obtain ⟨rel, hall, hform⟩ := requestTarget_form base path t0 hrt
  obtain ⟨u, hu, hbuild⟩ := serveTarget_form fs t0 method s rsp hserve hs
  subst hform
  rcases hu with hu | hu
  · exact ⟨u, rel, hall, Or.inl hu, hbuild⟩
  · exact ⟨u, rel, hall, Or.inr hu, hbuild⟩

/-- Witness for C2 at `GET /` against the demo filesystem. -/
theorem claim_C2_containment_witness :
    ∃ t rel, (pathComponents rel).all goodComponent = true ∧
      (t = joinPath (ascii "/srv") rel ∨
       t = joinPath (joinPath (ascii "/srv") rel) indexHtml) ∧
      (((200 : Nat) = 200 ∧ build_file_response demoFs t "GET"
          = some { status := 200,
                   headers := [("Content-Type", ascii "text/html")],
                   body := ascii "<p>home</p>" }) ∨
       ((200 : Nat) = 500 ∧ build_file_response demoFs t "GET" = none)) :=
  claim_C2_containment demoFs (ascii "/srv") (ascii "/") "GET" 200
    { status := 200, headers := [("Content-Type", ascii "text/html")],
      body := ascii "<p>home</p>" }
    (by decide) (Or.inl rfl)

/-- C4: when the decoded request path is exactly `/`, the target is
`index.html` directly under the base directory, with no sanitizer
involvement: if that file is a readable regular file the response is 200
with its content and its content type, and if it is absent the response
is 404. -/
theorem claim_C4_root_mapping :
    ∀ fs base path method,
      wantsRedirect path = false →
      urlDecode path = some [47] →
      (∀ c, readFile fs (joinPath base indexHtml) = some c →
        ∃ rsp, route_request fs base path method = some (200, rsp) ∧
          ("Content-Type", mimeEssence (joinPath base indexHtml)) ∈ rsp.headers ∧
          (method ≠ "HEAD" → rsp.body = c))
      ∧ (stat fs (joinPath base indexHtml) = none →
          route_request fs base path method
            = some (404, response_with_status 404 method "Not Found")) := by
  intro fs base path method hw hdec
  have hrt : requestTarget base path = some (joinPath base indexHtml) := by
    unfold requestTarget
    rw [if_neg (by simp [hw])]
    simp [hdec]
  have hroute := route_eq_serveTarget fs base path method _ hrt
  constructor
  · intro c hr
    have hs := stat_of_read fs (joinPath base indexHtml) c hr
    have hserve : serveTarget fs (joinPath base indexHtml) method
        = finishServe fs (joinPath base indexHtml) method := by
      simp [serveTarget, hs]
    by_cases hm : method = "HEAD"
    · have hb := (build_file_of_read fs (joinPath base indexHtml) c hr method).1 hm
      refine ⟨{ status := 200,
                headers := [("Content-Type", mimeEssence (joinPath base indexHtml)),
                            ("Content-Length", ascii (toString c.length))],
                body := [] }, ?_, by simp, fun hne => absurd hm hne⟩
      rw [hroute, hserve]
      unfold finishServe
      rw [hb]
    · have hb := (build_file_of_read fs (joinPath base indexHtml) c hr method).2 hm
      refine ⟨{ status := 200,
                headers := [("Content-Type", mimeEssence (joinPath base indexHtml))],
                body := c }, ?_, by simp, fun _ => rfl⟩
      rw [hroute, hserve]
      unfold finishServe
      rw [hb]
  · intro hnone
    rw [hroute]
    simp [serveTarget, hnone]

/-- Witness for C4: `GET /` serves `/srv/index.html` on the demo
filesystem and is 404 on an empty filesystem. -/
theorem claim_C4_root_mapping_witness :
    (∃ rsp, route_request demoFs (ascii "/srv") (ascii "/") "GET"
        = some (200, rsp) ∧
      ("Content-Type", mimeEssence (joinPath (ascii "/srv") indexHtml))
        ∈ rsp.headers ∧
      ("GET" ≠ "HEAD" → rsp.body = ascii "<p>home</p>"))
    ∧ route_request (FsTree.dir []) (ascii "/srv") (ascii "/") "GET"
        = some (404, response_with_status 404 "GET" "Not Found") :=
  ⟨(claim_C4_root_mapping demoFs (ascii "/srv") (ascii "/") "GET"
      (by decide) (by decide)).1 (ascii "<p>home</p>") (by decide),
   (claim_C4_root_mapping (FsTree.dir []) (ascii "/srv") (ascii "/") "GET"
      (by decide) (by decide)).2 (by decide)⟩

/-- C5: when the resolved target is a directory, `route_request` serves
the `index.html` directly inside it when that entry is a regular file and
answers 404 otherwise; no directory listing is ever produced. -/
theorem claim_C5_dir_index :
    ∀ fs base path method t,
      requestTarget base path = some t →
      stat fs t = some Meta.dirM →
      (∀ c, readFile fs (joinPath t indexHtml) = some c →
        ∃ rsp, route_request fs base path method = some (200, rsp) ∧
          (method ≠ "HEAD" → rsp.body = c))
      ∧ (isFile fs (joinPath t indexHtml) = false →
          route_request fs base path method
            = some (404, response_with_status 404 method "Not Found")) := by
  intro fs base path method t hrt hdir
  have hroute := route_eq_serveTarget fs base path method t hrt
  constructor
  · intro c hr
    have hf : isFile fs (joinPath t indexHtml) = true := by
      have hs := stat_of_read fs (joinPath t indexHtml) c hr
      simp [isFile, hs]
    have hserve : serveTarget fs t method
        = finishServe fs (joinPath t indexHtml) method := by
      simp [serveTarget, hdir, hf]
    by_cases hm : method = "HEAD"
    · have hb := (build_file_of_read fs (joinPath t indexHtml) c hr method).1 hm
      refine ⟨{ status := 200,
                headers := [("Content-Type", mimeEssence (joinPath t indexHtml)),
                            ("Content-Length", ascii (toString c.length))],
                body := [] }, ?_, fun hne => absurd hm hne⟩
      rw [hroute, hserve]
      unfold finishServe
      rw [hb]
    · have hb := (build_file_of_read fs (joinPath t indexHtml) c hr method).2 hm
      refine ⟨{ status := 200,
                headers := [("Content-Type", mimeEssence (joinPath t indexHtml))],
                body := c }, ?_, fun _ => rfl⟩
      rw [hroute, hserve]
      unfold finishServe
      rw [hb]
  · intro hnf
    rw [hroute]
    simp [serveTarget, hdir, hnf]

/-- Witness for C5: `/docs` (directory with an index) serves `docs home`;
`/plain` (directory without one) is 404. -/
theorem claim_C5_dir_index_witness :
    (∃ rsp, route_request demoFs (ascii "/srv") (ascii "/docs") "GET"
        = some (200, rsp) ∧
      ("GET" ≠ "HEAD" → rsp.body = ascii "docs home"))
    ∧ route_request demoFs (ascii "/srv") (ascii "/plain") "GET"
        = some (404, response_with_status 404 "GET" "Not Found") :=
  ⟨(claim_C5_dir_index demoFs (ascii "/srv") (ascii "/docs") "GET"
      (joinPath (ascii "/srv") (ascii "docs")) (by decide) (by decide)).1
      (ascii "docs home") (by decide),
   (claim_C5_dir_index demoFs (ascii "/srv") (ascii "/plain") "GET"
      (joinPath (ascii "/srv") (ascii "plain")) (by decide) (by decide)).2
      (by decide)⟩

/-- C7: HEAD responses always have an empty body; the HEAD answer is
determined by file metadata alone (no content bytes are read); and a 200
HEAD response carries a `Content-Length` equal to the byte size of the
body the corresponding GET returns with status 200. -/
theorem claim_C7_head_semantics :
    (∀ fs base url s rsp,
        handle_request fs base "HEAD" url = some (s, rsp) → rsp.body = [])
    ∧ (∀ fs fs2 base url, (∀ q, stat fs q = stat fs2 q) →
        handle_request fs base "HEAD" url = handle_request fs2 base "HEAD" url)
    ∧ (∀ fs base url rsp,
        handle_request fs base "HEAD" url = some (200, rsp) →
        ∃ rg, handle_request fs base "GET" url = some (200, rg) ∧
          ("Content-Length", ascii (toString rg.body.length)) ∈ rsp.headers) := by
  refine ⟨?_, ?_, ?_⟩
  · intro fs base url s rsp h
    unfold handle_request at h
    rw [if_pos (Or.inr rfl)] at h
    exact route_head_body fs base _ s rsp h
  · intro fs fs2 base url h
    unfold handle_request
    have hcond : ("HEAD" : String) = "GET" ∨ ("HEAD" : String) = "HEAD" :=
      Or.inr rfl
    simp only [if_pos hcond]
    exact route_head_stat_eq fs fs2 base _ h
  · intro fs base url rsp h
    unfold handle_request at h
    rw [if_pos (Or.inr rfl)] at h
    obtain ⟨t, hrt, hserve⟩ :=
      route_200_500 fs base _ "HEAD" 200 rsp h (Or.inl rfl)
    obtain ⟨u, hfile, hbuild, hall⟩ := serveTarget_200 fs t "HEAD" rsp hserve
    obtain ⟨c, hread, hstat⟩ := read_of_isFile fs u hfile
    have hbH := (build_file_of_read fs u c hread "HEAD").1 rfl
    have hbG := (build_file_of_read fs u c hread "GET").2 (by decide)
    have hrspEq : rsp
        = { status := 200,
            headers := [("Content-Type", mimeEssence u),
                        ("Content-Length", ascii (toString c.length))],
            body := [] } := by
      rw [hbuild] at hbH
      exact Option.some.inj hbH
    refine ⟨{ status := 200, headers := [("Content-Type", mimeEssence u)],
              body := c }, ?_, ?_⟩
    · unfold handle_request
      rw [if_pos (Or.inl rfl)]
      rw [route_eq_serveTarget fs base (url.takeWhile (fun b => b ≠ 63)) "GET" t hrt,
          hall "GET"]
      unfold finishServe
      rw [hbG]
    · rw [hrspEq]
      simp

/-- Witness for C7 at `/data.json` on the demo filesystem. -/
theorem claim_C7_head_semantics_witness :
    ({ status := 200,
       headers := [("Content-Type", ascii "application/json"),
                   ("Content-Length", ascii "6")],
       body := ([] : List Nat) } : Resp).body = []
    ∧ handle_request demoFs (ascii "/srv") "HEAD" (ascii "/data.json")
        = handle_request demoFs (ascii "/srv") "HEAD" (ascii "/data.json")
    ∧ ∃ rg, handle_request demoFs (ascii "/srv") "GET" (ascii "/data.json")
          = some (200, rg) ∧
        ("Content-Length", ascii (toString rg.body.length))
          ∈ ({ status := 200,
               headers := [("Content-Type", ascii "application/json"),
                           ("Content-Length", ascii "6")],
               body := ([] : List Nat) } : Resp).headers :=
  ⟨claim_C7_head_semantics.1 demoFs (ascii "/srv") (ascii "/data.json") 200
      { status := 200,
        headers := [("Content-Type", ascii "application/json"),
                    ("Content-Length", ascii "6")],
        body := [] } (by decide),
   claim_C7_head_semantics.2.1 demoFs demoFs (ascii "/srv") (ascii "/data.json")
      (fun _ => rfl),
   claim_C7_head_semantics.2.2 demoFs (ascii "/srv") (ascii "/data.json")
      { status := 200,
        headers := [("Content-Type", ascii "application/json"),
                    ("Content-Length", ascii "6")],
        body := [] } (by decide)⟩

/-- C8: a GET that resolves to a readable regular file is answered 200,
with a `Content-Type` computed from the file's extension through the MIME
table (falling back to `application/octet-stream`) and a body
byte-identical to the file's content. -/
theorem claim_C8_get_roundtrip :
    ∀ fs base path t c,
      requestTarget base path = some t →
      readFile fs t = some c →
      route_request fs base path "GET"
        = some (200, { status := 200,
                       headers := [("Content-Type", mimeEssence t)],
                       body := c }) := by
  intro fs base path t c hrt hr
  have hroute := route_eq_serveTarget fs base path "GET" t hrt
  have hs := stat_of_read fs t c hr
  have hserve : serveTarget fs t "GET" = finishServe fs t "GET" := by
    simp [serveTarget, hs]
  have hb := (build_file_of_read fs t c hr "GET").2 (by decide)
  rw [hroute, hserve]
  unfold finishServe
  rw [hb]

/-- Witness for C8 at `/data.json`, whose registered MIME type is
`application/json`. -/
theorem claim_C8_get_roundtrip_witness :
    route_request demoFs (ascii "/srv") (ascii "/data.json") "GET"
      = some (200,
          { status := 200,
            headers := [("Content-Type",
              mimeEssence (joinPath (ascii "/srv") (ascii "data.json")))],
            body := ascii "[1, 2]" }) :=
  claim_C8_get_roundtrip demoFs (ascii "/srv") (ascii "/data.json")
    (joinPath (ascii "/srv") (ascii "data.json")) (ascii "[1, 2]")
    (by decide) (by decide)

end Srvplz
